import Mathlib

/-!
Shallow embedding of the timer-lifecycle and authorization core of the
timetracker application.  Timestamps are integer milliseconds since the epoch
(the value of `Date.getTime()`); the database is an explicit store of rows and
each service method becomes a pure function threading the store.  Row order in
the store models the row order the database returns to unordered queries.
-/

namespace Timetracker

abbrev Millis := Int

/-- A row of the time_entries table (src/drizzle/schema.ts). -/
structure TimeEntry where
  id : String
  projectId : String
  userId : String
  description : String
  startTime : Millis
  endTime : Option Millis
  durationMinutes : Option Int
  isActive : Bool
  createdAt : Millis
  updatedAt : Millis
deriving Repr, DecidableEq

/-- The part of a projects row the timer services consult: id and owner. -/
structure Project where
  id : String
  userId : String
deriving Repr, DecidableEq

/-- The persistent state the timer services act on. -/
structure Store where
  projects : List Project
  entries : List TimeEntry
deriving Repr, DecidableEq

/-- JS `Math.round(num/den)` for `den > 0`: `⌊num/den + 1/2⌋`, halves rounding
toward +∞.  Written with integer floor division so it evaluates in the kernel;
`jsMathRound_eq_floor` identifies it with the floor formula. -/
def jsMathRound (num den : Int) : Int := Int.fdiv (2 * num + den) (2 * den)

theorem jsMathRound_eq_floor (num den : Int) (h : 0 < den) :
    jsMathRound num den = ⌊(num : ℚ) / (den : ℚ) + 1 / 2⌋ := by
  have h2 : (0 : ℤ) < 2 * den := by omega
  have harg : (num : ℚ) / (den : ℚ) + 1 / 2
      = ((2 * num + den : Int) : ℚ) / ((2 * den : Int) : ℚ) := by
    have hden : (den : ℚ) ≠ 0 := by exact_mod_cast h.ne'
    push_cast
    field_simp
    ring
  have hnat : ((2 * den : Int) : ℚ) = (((2 * den).toNat : ℕ) : ℚ) := by
    have := Int.toNat_of_nonneg h2.le
    exact_mod_cast (congrArg (fun z : ℤ => (z : ℚ)) this).symm
  rw [harg, hnat, Rat.floor_intCast_div_natCast, Int.toNat_of_nonneg h2.le]
  exact Int.fdiv_eq_ediv _ h2.le

/-- Duration as computed at `stopTimeTracking`:
`Math.round((endTime.getTime() - activeEntry.startTime.getTime()) / (1000 * 60))`
(src/lib/services/time-entries.ts lines 70-72). -/
def stopDurationMinutes (startMs endMs : Millis) : Int :=
  jsMathRound (endMs - startMs) (1000 * 60)

/-- Duration as computed at `addManualTimeEntry`
(src/lib/services/time-entries.ts lines 120-122). -/
def manualDurationMinutes (startMs endMs : Millis) : Int :=
  jsMathRound (endMs - startMs) (1000 * 60)

/-- Duration as computed at `updateTimeEntry`
(src/lib/services/time-entries.ts lines 262-264). -/
def updateDurationMinutes (startMs endMs : Millis) : Int :=
  jsMathRound (endMs - startMs) (1000 * 60)

/-- Duration as computed in the PATCH handler of
src/app/api/time-entries/active/route.ts (lines 71 and 88, identical in the
stop and in the pause branch). -/
def patchDurationMinutes (startMs endMs : Millis) : Int :=
  jsMathRound (endMs - startMs) (1000 * 60)

/-- Predicate of the active-entry lookups:
`and(eq(timeEntries.userId, userId), eq(timeEntries.isActive, true))`. -/
def isActiveFor (userId : String) (e : TimeEntry) : Bool :=
  e.userId == userId && e.isActive

/-- Project lookup of `startTimeTracking` and `addManualTimeEntry`:
`where(and(eq(projects.id, projectId), eq(projects.userId, userId))).limit(1)`. -/
def findProject (s : Store) (projectId userId : String) : Option Project :=
  s.projects.find? (fun p => p.id == projectId && p.userId == userId)

/-- The row inserted by `startTimeTracking` (src/lib/services/time-entries.ts
lines 35-46); `id` stands for the generated `nanoid()` and `now` for the
`new Date()` calls. -/
def newStartEntry (userId projectId description id : String) (now : Millis) :
    TimeEntry :=
  { id := id, projectId := projectId, userId := userId,
    description := description, startTime := now, endTime := none,
    durationMinutes := none, isActive := true, createdAt := now,
    updatedAt := now }

/-- The check phase of `startTimeTracking`: verify the project belongs to the
user, then verify no active entry exists (lines 13-33).  Split out so the
interleaving of two concurrent calls can be analysed; `startTimeTracking_split`
ties the split to the full operation. -/
def startCheck (s : Store) (userId projectId : String) : Except String Unit :=
  match findProject s projectId userId with
  | none => .error "Project not found or does not belong to user"
  | some _ =>
    match s.entries.find? (isActiveFor userId) with
    | some _ => .error "There is already an active time entry. Stop it first."
    | none => .ok ()

/-- The insert phase of `startTimeTracking` (line 48): unconditionally insert
the new row. -/
def startInsert (s : Store) (userId projectId description id : String)
    (now : Millis) : TimeEntry × Store :=
  let e := newStartEntry userId projectId description id now
  (e, { s with entries := s.entries ++ [e] })

/-- `TimeEntryService.startTimeTracking` (src/lib/services/time-entries.ts
lines 8-50). -/
def startTimeTracking (s : Store) (userId projectId description : String)
    (id : String) (now : Millis) : Except String (TimeEntry × Store) :=
  match findProject s projectId userId with
  | none => .error "Project not found or does not belong to user"
  | some _ =>
    match s.entries.find? (isActiveFor userId) with
    | some _ => .error "There is already an active time entry. Stop it first."
    | none => .ok (startInsert s userId projectId description id now)

theorem startTimeTracking_split (s : Store) (userId projectId description id :
    String) (now : Millis) :
    startTimeTracking s userId projectId description id now =
      match startCheck s userId projectId with
      | .error e => .error e
      | .ok _ => .ok (startInsert s userId projectId description id now) := by
  unfold startTimeTracking startCheck
  cases findProject s projectId userId with
  | none => rfl
  | some _ => cases s.entries.find? (isActiveFor userId) <;> rfl

/-- The `.set({endTime, durationMinutes, isActive: false, updatedAt})` update
applied by `stopTimeTracking` (lines 74-83) and by the PATCH handler of
src/app/api/time-entries/active/route.ts (lines 73-81 and 90-98), with
`where(eq(timeEntries.id, entryId))`. -/
def closeEntry (entryId : String) (now : Millis) (d : Int) (e : TimeEntry) :
    TimeEntry :=
  if e.id == entryId then
    { e with endTime := some now, durationMinutes := some d,
             isActive := false, updatedAt := now }
  else e

/-- Row filter of `stopTimeTracking`: userId and isActive, plus the id when an
`entryId` argument was given (lines 53-57). -/
def stopMatches (userId : String) (entryId : Option String) (e : TimeEntry) :
    Bool :=
  e.userId == userId && e.isActive &&
    (match entryId with
     | some i => e.id == i
     | none => true)

/-- `TimeEntryService.stopTimeTracking` (lines 52-86). -/
def stopTimeTracking (s : Store) (userId : String) (entryId : Option String)
    (now : Millis) : Except String (TimeEntry × Store) :=
  match s.entries.find? (stopMatches userId entryId) with
  | none => .error "No active time entry found"
  | some activeEntry =>
    let d := stopDurationMinutes activeEntry.startTime now
    .ok (closeEntry activeEntry.id now d activeEntry,
         { s with entries := s.entries.map (closeEntry activeEntry.id now d) })

/-- `TimeEntryService.getActiveTimeEntry` (lines 88-96). -/
def getActiveTimeEntry (s : Store) (userId : String) : Option TimeEntry :=
  s.entries.find? (isActiveFor userId)

/-- The row inserted by `addManualTimeEntry` (lines 124-135). -/
def newManualEntry (userId projectId description : String)
    (startTime endTime : Millis) (id : String) (now : Millis) : TimeEntry :=
  { id := id, projectId := projectId, userId := userId,
    description := description, startTime := startTime,
    endTime := some endTime,
    durationMinutes := some (manualDurationMinutes startTime endTime),
    isActive := false, createdAt := now, updatedAt := now }

/-- `TimeEntryService.addManualTimeEntry` (lines 98-139). -/
def addManualTimeEntry (s : Store) (userId projectId description : String)
    (startTime endTime : Millis) (id : String) (now : Millis) :
    Except String (TimeEntry × Store) :=
  match findProject s projectId userId with
  | none => .error "Project not found or does not belong to user"
  | some _ =>
    if endTime ≤ startTime then
      .error "End time must be after start time"
    else
      let e := newManualEntry userId projectId description startTime endTime
        id now
      .ok (e, { s with entries := s.entries ++ [e] })

/-- The update payload of `updateTimeEntry`: a JS object that may carry each
column of the row except id, userId and createdAt.  A field value of
`some none` models a field explicitly present with value null; `none` models an
absent field. -/
structure UpdateData where
  projectId : Option String := none
  description : Option String := none
  startTime : Option Millis := none
  endTime : Option (Option Millis) := none
  durationMinutes : Option (Option Int) := none
  isActive : Option Bool := none
deriving Repr, DecidableEq

/-- Applies the drizzle `.set(updateData)` object: every present field
overwrites the stored value; `updatedAt` is always set to `new Date()`
(line 243 overrides any updatedAt in the payload). -/
def applySet (u : UpdateData) (now : Millis) (e : TimeEntry) : TimeEntry :=
  { e with
    projectId := u.projectId.getD e.projectId
    description := u.description.getD e.description
    startTime := u.startTime.getD e.startTime
    endTime := u.endTime.getD e.endTime
    durationMinutes := u.durationMinutes.getD e.durationMinutes
    isActive := u.isActive.getD e.isActive
    updatedAt := now }

/-- The `db.update(timeEntries).set(u).where(and(eq(id, entryId),
eq(userId, userId))).returning()` call of `updateTimeEntry` (lines 268-274):
rewrites every matching row and returns the first rewritten row, or none. -/
def runEntryUpdate (s : Store) (userId entryId : String) (u : UpdateData)
    (now : Millis) : Option TimeEntry × Store :=
  ((s.entries.find? (fun e => e.id == entryId && e.userId == userId)).map
      (applySet u now),
   { s with entries := s.entries.map (fun e =>
       if e.id == entryId && e.userId == userId then applySet u now e else e) })

/-- The JS truthiness test `data.startTime || data.endTime` of line 247: a
supplied startTime (a Date) is always truthy; a supplied endTime is truthy
only when it is not null. -/
def timeFieldsTouched (data : UpdateData) : Bool :=
  data.startTime.isSome ||
    (match data.endTime with
     | some (some _) => true
     | _ => false)

/-- `TimeEntryService.updateTimeEntry` (lines 236-275).  Returns the row the
call answers with (null when nothing matched) and the resulting store. -/
def updateTimeEntry (s : Store) (userId entryId : String) (data : UpdateData)
    (now : Millis) : Option TimeEntry × Store :=
  if timeFieldsTouched data then
    match s.entries.find? (fun e => e.id == entryId && e.userId == userId) with
    | none => (none, s)
    | some currentEntry =>
      let startTime := data.startTime.getD currentEntry.startTime
      let endTime :=
        match data.endTime with
        | some (some e) => some e
        | _ => currentEntry.endTime
      match endTime with
      | some e =>
        let d := updateDurationMinutes startTime e
        runEntryUpdate s userId entryId
          { data with durationMinutes := some (some d) } now
      | none => runEntryUpdate s userId entryId data now
  else
    runEntryUpdate s userId entryId data now

/-- `TimeEntryService.deleteTimeEntry` (lines 277-283): true iff
`result.rowCount > 0`, i.e. some row matched. -/
def deleteTimeEntry (s : Store) (userId entryId : String) : Bool × Store :=
  (s.entries.any (fun e => e.id == entryId && e.userId == userId),
   { s with entries := s.entries.filter (fun e =>
       !(e.id == entryId && e.userId == userId)) })

/-- Outcome of the PATCH handler of src/app/api/time-entries/active/route.ts:
400 for an unknown action, 404 when no active timer exists, otherwise the
success JSON `{success, action, durationMinutes}`. -/
inductive PatchResult where
  | invalidAction
  | noActiveTimer
  | success (action : String) (durationMinutes : Int)
deriving Repr, DecidableEq

/-- The PATCH handler of src/app/api/time-entries/active/route.ts
(lines 41-107).  After the guard rejecting every action other than stop and
pause, the two remaining branches are the `action === "stop"` branch and the
`action === "pause"` branch. -/
def patchActiveEntry (s : Store) (userId action : String) (now : Millis) :
    PatchResult × Store :=
  if action != "stop" && action != "pause" then (.invalidAction, s)
  else
    match s.entries.find? (isActiveFor userId) with
    | none => (.noActiveTimer, s)
    | some activeEntry =>
      if action == "stop" then
        let d := patchDurationMinutes activeEntry.startTime now
        (.success "stopped" d,
         { s with entries := s.entries.map (closeEntry activeEntry.id now d) })
      else
        let d := patchDurationMinutes activeEntry.startTime now
        (.success "paused" d,
         { s with entries := s.entries.map (closeEntry activeEntry.id now d) })

/-- `UserRole` of src/lib/authorization/types.ts. -/
inductive UserRole where
  | user
  | hr
  | manager
  | admin
deriving Repr, DecidableEq

/-- The string value backing each enum member. -/
def UserRole.value : UserRole → String
  | .user => "user"
  | .hr => "hr"
  | .manager => "manager"
  | .admin => "admin"

/-- `Permission` of src/lib/authorization/types.ts. -/
inductive Permission where
  | viewAllTimesheets
  | viewUserTimesheets
  | manageUsers
  | viewAllReports
deriving Repr, DecidableEq

/-- The `RolePermissions` table of src/lib/authorization/types.ts lines 51-70. -/
def RolePermissions : UserRole → List Permission
  | .user => []
  | .hr => [.viewAllTimesheets, .viewAllReports]
  | .manager => [.viewUserTimesheets]
  | .admin => [.viewAllTimesheets, .viewAllReports, .manageUsers]

/-- The metadata record of an AuthorizationContext; only directReports is
consulted by the embedded checks. -/
structure AuthMetadata where
  directReports : Option (List String) := none
deriving Repr, DecidableEq

/-- `AuthorizationContext` of src/lib/authorization/types.ts. -/
structure AuthorizationContext where
  userId : String
  roles : List UserRole
  metadata : Option AuthMetadata := none
deriving Repr, DecidableEq

/-- `AuthorizationResult` of src/lib/authorization/types.ts. -/
structure AuthorizationResult where
  authorized : Bool
  reason : Option String := none
deriving Repr, DecidableEq

/-- `hasPermission` (types.ts lines 128-140): some role of the context grants
the permission. -/
def hasPermission (context : AuthorizationContext) (permission : Permission) :
    Bool :=
  context.roles.any (fun role => (RolePermissions role).contains permission)

/-- The `context.roles.join(", ")` expression of the denial reasons. -/
def rolesJoined (context : AuthorizationContext) : String :=
  String.intercalate ", " (context.roles.map UserRole.value)

/-- The `context.metadata?.directReports || []` expression. -/
def directReportsOf (context : AuthorizationContext) : List String :=
  match context.metadata with
  | some m => m.directReports.getD []
  | none => []

/-- `canViewAllTimesheets` (types.ts lines 145-154). -/
def canViewAllTimesheets (context : AuthorizationContext) :
    AuthorizationResult :=
  let authorized := hasPermission context .viewAllTimesheets
  { authorized := authorized
    reason :=
      if authorized then none
      else some ("User with roles [" ++ rolesJoined context
        ++ "] does not have permission to view all timesheets") }

/-- `canViewUserTimesheets` (types.ts lines 163-196). -/
def canViewUserTimesheets (context : AuthorizationContext)
    (targetUserId : String) : AuthorizationResult :=
  if context.userId == targetUserId then { authorized := true }
  else if hasPermission context .viewAllTimesheets then { authorized := true }
  else if hasPermission context .viewUserTimesheets then
    if (directReportsOf context).contains targetUserId then
      { authorized := true }
    else
      { authorized := false
        reason := some ("User " ++ targetUserId
          ++ " is not in the manager\x27s direct reports") }
  else
    { authorized := false
      reason := some ("User with roles [" ++ rolesJoined context
        ++ "] cannot view timesheets for user " ++ targetUserId) }

/-- `canViewReports` (types.ts lines 206-253); `none` models an undefined
targetUserIds argument. -/
def canViewReports (context : AuthorizationContext)
    (targetUserIds : Option (List String)) : AuthorizationResult :=
  match targetUserIds with
  | none => { authorized := true }
  | some ids =>
    if ids.isEmpty then { authorized := true }
    else
      let requestingOtherUsers := ids.any (fun id => id != context.userId)
      if !requestingOtherUsers then { authorized := true }
      else if hasPermission context .viewAllTimesheets then
        { authorized := true }
      else if hasPermission context .viewUserTimesheets then
        let directReports := directReportsOf context
        let unauthorizedUsers := ids.filter (fun id =>
          id != context.userId && !directReports.contains id)
        if unauthorizedUsers.isEmpty then { authorized := true }
        else
          { authorized := false
            reason := some ("Cannot view reports for users: "
              ++ String.intercalate ", " unauthorizedUsers) }
      else
        { authorized := false
          reason := some ("User with roles [" ++ rolesJoined context
            ++ "] cannot view reports for other users") }

/-- Character-list test: the second list starts with the first. -/
def charsStartWith : List Char → List Char → Bool
  | [], _ => true
  | _ :: _, [] => false
  | a :: as, b :: bs => a == b && charsStartWith as bs

/-- Character-list substring test: pat occurs somewhere in the second list. -/
def charsContain (pat : List Char) : List Char → Bool
  | [] => charsStartWith pat []
  | c :: rest => charsStartWith pat (c :: rest) || charsContain pat rest

/-- The SQL `LOWER(hay) LIKE LOWER(%needle%)` test used by the search filter:
case-insensitive substring match. -/
def sqlLikeContains (hay needle : String) : Bool :=
  charsContain (needle.data.map Char.toLower) (hay.data.map Char.toLower)

/-- The JS `String.prototype.trim()` call: strip whitespace on both ends. -/
def jsTrim (s : String) : String :=
  String.mk (((s.data.dropWhile Char.isWhitespace).reverse.dropWhile
    Char.isWhitespace).reverse)

/-- The `value.split(",").map(x => x.trim()).filter(Boolean)` parsing of the
comma-separated users and projects filters. -/
def splitCommaList (s : String) : List String :=
  ((splitCommaAux [] s.data).map (fun cs => jsTrim (String.mk cs))).filter
    (fun x => !x.isEmpty)
where
  /-- The `split(",")` part, accumulating the current chunk. -/
  splitCommaAux (cur : List Char) : List Char → List (List Char)
    | [] => [cur.reverse]
    | c :: rest =>
      if c == ',' then cur.reverse :: splitCommaAux [] rest
      else splitCommaAux (c :: cur) rest

/-- A joined result row of the listing query: a time entry with the joined
project and client names. -/
structure ListRow where
  entry : TimeEntry
  projectName : String
  clientName : String
deriving Repr, DecidableEq

/-- The raw filter parameters of GET /api/time-entries
(src/app/api/time-entries/route.ts lines 16-22): `search` defaults to the
empty string, the others are null when the query parameter is absent. -/
structure ListingParams where
  search : String := ""
  projectFilter : Option String := none
  dateFrom : Option String := none
  dateTo : Option String := none
  userFilter : Option String := none
deriving Repr, DecidableEq

/-- The WHERE conditions built by GET /api/time-entries (lines 24-75), as
predicates on joined rows.  `sqlDateOfTime` and `sqlDateOfText` model the SQL
DATE() function on a timestamp column and on a text literal.  The route
consults no authorization check while building these conditions (the comment
at line 30 of the route notes the absent permission check). -/
def listingConditions (sqlDateOfTime : Millis → Int)
    (sqlDateOfText : String → Int) (params : ListingParams)
    (userId : String) : List (ListRow → Bool) :=
  let userConds : List (ListRow → Bool) :=
    match params.userFilter with
    | none => [fun r => r.entry.userId == userId]
    | some uf =>
      if uf == "all" then []
      else if uf == "" then [fun r => r.entry.userId == userId]
      else
        match splitCommaList uf with
        | [] => []
        | [u] => [fun r => r.entry.userId == u]
        | us => [fun r => us.contains r.entry.userId]
  let searchConds : List (ListRow → Bool) :=
    if params.search == "" then []
    else [fun r => sqlLikeContains r.entry.description params.search
      || sqlLikeContains r.projectName params.search
      || sqlLikeContains r.clientName params.search]
  let projectConds : List (ListRow → Bool) :=
    match params.projectFilter with
    | none => []
    | some pf =>
      if pf == "all" then []
      else if pf == "" then []
      else
        match splitCommaList pf with
        | [] => []
        | [p] => [fun r => r.projectName == p]
        | ps => [fun r => ps.contains r.projectName]
  let dateConds : List (ListRow → Bool) :=
    match params.dateFrom, params.dateTo with
    | some df, some dt =>
      if df == "" || dt == "" then []
      else [fun r =>
        decide (sqlDateOfText df ≤ sqlDateOfTime r.entry.startTime)
          && decide (sqlDateOfTime r.entry.startTime ≤ sqlDateOfText dt)]
    | _, _ => []
  userConds ++ searchConds ++ projectConds ++ dateConds

/-- A row satisfies the `and(...conditions)` WHERE clause of the listing. -/
def listingMatches (sqlDateOfTime : Millis → Int)
    (sqlDateOfText : String → Int) (params : ListingParams) (userId : String)
    (r : ListRow) : Bool :=
  (listingConditions sqlDateOfTime sqlDateOfText params userId).all
    (fun c => c r)

/-- C5: for all millisecond timestamps with end after start, stop,
addManualEntry, updateEntry (and the PATCH route) compute the stored
durationMinutes by the identical function, namely
round((end - start) / 60000) with halves rounded up. -/
theorem duration_law (startMs endMs : Millis) (h : startMs < endMs) :
    stopDurationMinutes startMs endMs = manualDurationMinutes startMs endMs ∧
    manualDurationMinutes startMs endMs
      = updateDurationMinutes startMs endMs ∧
    updateDurationMinutes startMs endMs = patchDurationMinutes startMs endMs ∧
    stopDurationMinutes startMs endMs
      = ⌊((endMs : ℚ) - (startMs : ℚ)) / 60000 + 1 / 2⌋ := by
  refine ⟨rfl, rfl, rfl, ?_⟩
  have harg : ((endMs - startMs : ℤ) : ℚ) / ((1000 * 60 : ℤ) : ℚ) + 1 / 2
      = ((endMs : ℚ) - (startMs : ℚ)) / 60000 + 1 / 2 := by
    push_cast
    norm_num
  rw [stopDurationMinutes, jsMathRound_eq_floor _ _ (by norm_num), harg]

/-- Witness for C5 at a concrete input: 90000 ms is 1.5 minutes, and the half
rounds up to 2. -/
theorem duration_law_witness :
    (0 : Millis) < 90000 ∧
    stopDurationMinutes 0 90000 = manualDurationMinutes 0 90000 ∧
    manualDurationMinutes 0 90000 = updateDurationMinutes 0 90000 ∧
    updateDurationMinutes 0 90000 = patchDurationMinutes 0 90000 ∧
    stopDurationMinutes 0 90000 = 2 := by
  have h := duration_law 0 90000 (by decide)
  exact ⟨by decide, h.1, h.2.1, h.2.2.1, by decide⟩

/-- C10: the day-level date-range condition of the listing is built only when
both dateFrom and dateTo are supplied; with exactly one of them the WHERE
clause is the one built with neither. -/
theorem date_filter_requires_both_bounds (sqlDateOfTime : Millis → Int)
    (sqlDateOfText : String → Int) (params : ListingParams) (userId : String)
    (df dt : String) (r : ListRow) :
    (listingMatches sqlDateOfTime sqlDateOfText
        { params with dateFrom := some df, dateTo := none } userId r
      = listingMatches sqlDateOfTime sqlDateOfText
        { params with dateFrom := none, dateTo := none } userId r) ∧
    (listingMatches sqlDateOfTime sqlDateOfText
        { params with dateFrom := none, dateTo := some dt } userId r
      = listingMatches sqlDateOfTime sqlDateOfText
        { params with dateFrom := none, dateTo := none } userId r) :=
  ⟨rfl, rfl⟩

/-- C6: for a user with an active entry, the pause action of the PATCH route
performs exactly the store transition of the stop action: endTime := now,
durationMinutes := the computed duration, isActive := false on the active
entry; the stores after the two actions are always identical. -/
theorem pause_equals_stop :
    (∀ (s : Store) (userId : String) (now : Millis),
        (patchActiveEntry s userId "pause" now).2
          = (patchActiveEntry s userId "stop" now).2) ∧
    (∀ (s : Store) (userId : String) (now : Millis) (a : TimeEntry),
        s.entries.find? (isActiveFor userId) = some a →
        patchActiveEntry s userId "pause" now
            = (.success "paused" (patchDurationMinutes a.startTime now),
               { s with entries :=
                   s.entries.map (closeEntry a.id now
                     (patchDurationMinutes a.startTime now)) }) ∧
          patchActiveEntry s userId "stop" now
            = (.success "stopped" (patchDurationMinutes a.startTime now),
               { s with entries :=
                   s.entries.map (closeEntry a.id now
                     (patchDurationMinutes a.startTime now)) })) := by
  constructor
  · intro s userId now
    cases h : s.entries.find? (isActiveFor userId) <;>
      simp [patchActiveEntry, h]
  · intro s userId now a h
    constructor <;> simp [patchActiveEntry, h]

/-- Witness for C6 at a concrete store holding one active entry. -/
theorem pause_equals_stop_witness :
    (Store.mk [] [TimeEntry.mk "e1" "p" "u" "" 0 none none true 0 0]).entries.find?
        (isActiveFor "u")
      = some (TimeEntry.mk "e1" "p" "u" "" 0 none none true 0 0) ∧
    patchActiveEntry
        (Store.mk [] [TimeEntry.mk "e1" "p" "u" "" 0 none none true 0 0])
        "u" "pause" 90000
      = (.success "paused" 2,
         Store.mk []
           [TimeEntry.mk "e1" "p" "u" "" 0 (some 90000) (some 2) false 0 90000]) := by
  refine ⟨by decide, ?_⟩
  obtain ⟨-, h2⟩ := pause_equals_stop
  have h := (h2 (Store.mk [] [TimeEntry.mk "e1" "p" "u" "" 0 none none true 0 0])
    "u" 90000 (TimeEntry.mk "e1" "p" "u" "" 0 none none true 0 0)
    (by decide)).1
  rw [h]
  decide

/-- C7: addManualEntry on an existing project rejects end before or equal to
start with the validation error and creates nothing; with end after start it
creates a closed entry carrying the computed duration. -/
theorem addManual_validates_and_creates :
    (∀ (s : Store) (userId projectId description : String)
        (startT endT : Millis) (id : String) (now : Millis),
        (findProject s projectId userId).isSome = true →
        endT ≤ startT →
        addManualTimeEntry s userId projectId description startT endT id now
          = .error "End time must be after start time") ∧
    (∀ (s : Store) (userId projectId description : String)
        (startT endT : Millis) (id : String) (now : Millis),
        (findProject s projectId userId).isSome = true →
        startT < endT →
        ∃ created s1,
          addManualTimeEntry s userId projectId description startT endT id now
              = .ok (created, s1) ∧
            created.isActive = false ∧
            created.endTime = some endT ∧
            created.durationMinutes
              = some (manualDurationMinutes startT endT) ∧
            s1.entries = s.entries ++ [created]) := by
  constructor
  · intro s userId projectId description startT endT id now hproj hle
    obtain ⟨p, hp⟩ := Option.isSome_iff_exists.mp hproj
    unfold addManualTimeEntry
    rw [hp, if_pos hle]
  · intro s userId projectId description startT endT id now hproj hlt
    obtain ⟨p, hp⟩ := Option.isSome_iff_exists.mp hproj
    refine ⟨newManualEntry userId projectId description startT endT id now,
      { s with entries := s.entries
          ++ [newManualEntry userId projectId description startT endT id now] },
      ?_, rfl, rfl, rfl, rfl⟩
    unfold addManualTimeEntry
    rw [hp, if_neg (not_le.mpr hlt)]

/-- Witness for C7: the 2024-01-01T10:00Z to 2024-01-01T12:00Z entry gets
durationMinutes 120, and the inverted pair is rejected. -/
theorem addManual_witness :
    (findProject (Store.mk [Project.mk "p" "u"] []) "p" "u").isSome = true ∧
    (1704103200000 : Millis) < 1704110400000 ∧
    (∃ created s1,
        addManualTimeEntry (Store.mk [Project.mk "p" "u"] []) "u" "p" "x"
            1704103200000 1704110400000 "id1" 0
          = .ok (created, s1) ∧
        created.isActive = false ∧
        created.endTime = some 1704110400000 ∧
        created.durationMinutes
          = some (manualDurationMinutes 1704103200000 1704110400000) ∧
        s1.entries = (Store.mk [Project.mk "p" "u"] []).entries ++ [created]) ∧
    manualDurationMinutes 1704103200000 1704110400000 = 120 ∧
    addManualTimeEntry (Store.mk [Project.mk "p" "u"] []) "u" "p" "x"
        1704110400000 1704103200000 "id1" 0
      = .error "End time must be after start time" := by
  refine ⟨by decide, by decide, ?_, by decide, ?_⟩
  · exact addManual_validates_and_creates.2 _ "u" "p" "x" _ _ "id1" 0
      (by decide) (by decide)
  · exact addManual_validates_and_creates.1 _ "u" "p" "x" _ _ "id1" 0
      (by decide) (by decide)

/-- The id set the manager branch of `canViewReports` rejects: every requested
id that is neither the principal nor a direct report (types.ts lines 235-237).
Stated as its own definition so the theorem for C8 can compare the code
against the spec formula targetIds minus principal and direct reports. -/
def reportsUnauthorized (context : AuthorizationContext) (ids : List String) :
    List String :=
  ids.filter (fun id =>
    id != context.userId && !(directReportsOf context).contains id)

/-- C8: for a context holding the manager permission but not the blanket
permission, and a request naming some other user, canViewReports authorizes
exactly when every requested id is the principal or a direct report, and on
denial the reason lists every unauthorized id. -/
theorem canViewReports_manager_scope (context : AuthorizationContext)
    (ids : List String)
    (hvu : hasPermission context .viewUserTimesheets = true)
    (hva : hasPermission context .viewAllTimesheets = false)
    (hother : ids.any (fun id => id != context.userId) = true) :
    canViewReports context (some ids)
      = if (reportsUnauthorized context ids).isEmpty then
          { authorized := true }
        else
          { authorized := false
            reason := some ("Cannot view reports for users: "
              ++ String.intercalate ", " (reportsUnauthorized context ids)) } := by
  have hne : ids.isEmpty = false := by
    cases ids with
    | nil => simp at hother
    | cons a l => rfl
  simp only [canViewReports, hne, hother, hva, hvu, reportsUnauthorized,
    Bool.not_true, Bool.false_eq_true, if_false, if_true]

/-- Witness for C8: manager m with direct report u1 asking for u1 and u9 is
denied with a reason naming u9 only. -/
theorem canViewReports_manager_witness :
    hasPermission
        (AuthorizationContext.mk "m" [.manager]
          (some (AuthMetadata.mk (some ["u1"])))) .viewUserTimesheets
      = true ∧
    hasPermission
        (AuthorizationContext.mk "m" [.manager]
          (some (AuthMetadata.mk (some ["u1"])))) .viewAllTimesheets
      = false ∧
    (["u1", "u9"].any (fun id => id != "m")) = true ∧
    canViewReports
        (AuthorizationContext.mk "m" [.manager]
          (some (AuthMetadata.mk (some ["u1"])))) (some ["u1", "u9"])
      = { authorized := false
          reason := some "Cannot view reports for users: u9" } := by
  refine ⟨by decide, by decide, by decide, ?_⟩
  rw [canViewReports_manager_scope _ _ (by decide) (by decide) (by decide)]
  decide

/-- Shared helper: with the project present and an active entry present,
`startTimeTracking` answers the conflict error. -/
theorem startTimeTracking_conflict {s : Store}
    {userId projectId description id : String} {now : Millis}
    (hp : (findProject s projectId userId).isSome = true)
    (ha : s.entries.any (isActiveFor userId) = true) :
    startTimeTracking s userId projectId description id now
      = .error "There is already an active time entry. Stop it first." := by
  obtain ⟨pr, hpr⟩ := Option.isSome_iff_exists.mp hp
  obtain ⟨a, hmem, hact⟩ := List.any_eq_true.mp ha
  have hfind : (s.entries.find? (isActiveFor userId)).isSome = true := by
    rw [List.find?_isSome]
    exact ⟨a, hmem, hact⟩
  obtain ⟨b, hb⟩ := Option.isSome_iff_exists.mp hfind
  unfold startTimeTracking
  rw [hpr, hb]

/-- Shared helper: the shape of a successful `startTimeTracking` call. -/
theorem startTimeTracking_ok_elim {s : Store}
    {userId projectId description id : String} {now : Millis}
    {e : TimeEntry} {s1 : Store}
    (h : startTimeTracking s userId projectId description id now
      = .ok (e, s1)) :
    e = newStartEntry userId projectId description id now ∧
    s1 = { s with entries := s.entries ++ [e] } := by
  unfold startTimeTracking at h
  cases hpr : findProject s projectId userId with
  | none => rw [hpr] at h; exact absurd h (by simp)
  | some pr =>
    rw [hpr] at h
    cases hf : s.entries.find? (isActiveFor userId) with
    | some a => rw [hf] at h; exact absurd h (by simp)
    | none =>
      rw [hf] at h
      have h2 : startInsert s userId projectId description id now = (e, s1) :=
        Except.ok.inj h
      have he := congrArg Prod.fst h2
      have hs := congrArg Prod.snd h2
      simp only [startInsert] at he hs
      exact ⟨he.symm, by rw [← hs, he]⟩

/-- C2: start fails with the conflict error when the user already has an
active entry; with no active entry and an existing project it creates an
active entry with startTime now and null endTime and duration; a second start
before stopping therefore fails with the conflict error. -/
theorem start_requires_idle :
    (∀ (s : Store) (userId projectId description id : String) (now : Millis),
        (findProject s projectId userId).isSome = true →
        s.entries.any (isActiveFor userId) = true →
        startTimeTracking s userId projectId description id now
          = .error "There is already an active time entry. Stop it first.") ∧
    (∀ (s : Store) (userId projectId description id : String) (now : Millis),
        (findProject s projectId userId).isSome = true →
        s.entries.any (isActiveFor userId) = false →
        startTimeTracking s userId projectId description id now
            = .ok (newStartEntry userId projectId description id now,
                { s with entries := s.entries
                    ++ [newStartEntry userId projectId description id now] }) ∧
          (newStartEntry userId projectId description id now).startTime = now ∧
          (newStartEntry userId projectId description id now).isActive = true ∧
          (newStartEntry userId projectId description id now).endTime = none ∧
          (newStartEntry userId projectId description id now).durationMinutes
            = none) ∧
    (∀ (s : Store) (userId p1 d1 id1 : String) (t1 : Millis) (e1 : TimeEntry)
        (s1 : Store) (p2 d2 id2 : String) (t2 : Millis),
        startTimeTracking s userId p1 d1 id1 t1 = .ok (e1, s1) →
        (findProject s1 p2 userId).isSome = true →
        startTimeTracking s1 userId p2 d2 id2 t2
          = .error "There is already an active time entry. Stop it first.") := by
  refine ⟨?_, ?_, ?_⟩
  · intro s userId projectId description id now hp ha
    exact startTimeTracking_conflict hp ha
  · intro s userId projectId description id now hp ha
    obtain ⟨pr, hpr⟩ := Option.isSome_iff_exists.mp hp
    have hf : s.entries.find? (isActiveFor userId) = none := by
      rw [List.find?_eq_none]
      intro x hx
      intro hact
      have := List.any_eq_true.mpr ⟨x, hx, hact⟩
      rw [ha] at this
      exact absurd this (by simp)
    refine ⟨?_, rfl, rfl, rfl, rfl⟩
    unfold startTimeTracking
    rw [hpr, hf]
    rfl
  · intro s userId p1 d1 id1 t1 e1 s1 p2 d2 id2 t2 h hp2
    obtain ⟨he, hs⟩ := startTimeTracking_ok_elim h
    apply startTimeTracking_conflict hp2
    rw [hs]
    simp only [List.any_append]
    have : isActiveFor userId e1 = true := by
      rw [he]
      simp [isActiveFor, newStartEntry]
    simp [this]

/-- Witness for C2: on an empty store the first start succeeds and creates an
active null-duration entry; the second start against the resulting store
raises the conflict error. -/
theorem start_requires_idle_witness :
    (findProject (Store.mk [Project.mk "p1" "u", Project.mk "p2" "u"] [])
        "p1" "u").isSome = true ∧
    (Store.mk [Project.mk "p1" "u", Project.mk "p2" "u"] []).entries.any
        (isActiveFor "u") = false ∧
    startTimeTracking (Store.mk [Project.mk "p1" "u", Project.mk "p2" "u"] [])
        "u" "p1" "a" "id1" 5
      = .ok (newStartEntry "u" "p1" "a" "id1" 5,
          { Store.mk [Project.mk "p1" "u", Project.mk "p2" "u"] [] with
            entries := (Store.mk [Project.mk "p1" "u", Project.mk "p2" "u"]
              []).entries ++ [newStartEntry "u" "p1" "a" "id1" 5] }) ∧
    startTimeTracking
        { Store.mk [Project.mk "p1" "u", Project.mk "p2" "u"] [] with
          entries := (Store.mk [Project.mk "p1" "u", Project.mk "p2" "u"]
            []).entries ++ [newStartEntry "u" "p1" "a" "id1" 5] }
        "u" "p2" "b" "id2" 9
      = .error "There is already an active time entry. Stop it first." := by
  have h2 := start_requires_idle.2.1
    (Store.mk [Project.mk "p1" "u", Project.mk "p2" "u"] [])
    "u" "p1" "a" "id1" 5 (by decide) (by decide)
  refine ⟨by decide, by decide, h2.1, ?_⟩
  exact start_requires_idle.2.2
    (Store.mk [Project.mk "p1" "u", Project.mk "p2" "u"] [])
    "u" "p1" "a" "id1" 5 _ _ "p2" "b" "id2" 9 h2.1 (by decide)

/-- A sample active entry, used as witness input. -/
def entryA : TimeEntry :=
  { id := "e1", projectId := "p", userId := "u", description := "",
    startTime := 0, endTime := none, durationMinutes := none,
    isActive := true, createdAt := 0, updatedAt := 0 }

/-- A sample store with one active entry, used as witness input. -/
def storeA : Store :=
  { projects := [{ id := "p", userId := "u" }], entries := [entryA] }

/-- The row relation of the frame property of updateTimeEntry: id, userId and
createdAt survive, and a row that is not the addressed one is untouched. -/
def updateFrameRel (userId entryId : String) (old new : TimeEntry) : Prop :=
  old.id = new.id ∧ old.userId = new.userId ∧ old.createdAt = new.createdAt ∧
    (¬ (old.id = entryId ∧ old.userId = userId) → new = old)

theorem runEntryUpdate_forall₂ (s : Store) (userId entryId : String)
    (u : UpdateData) (now : Millis) :
    List.Forall₂ (updateFrameRel userId entryId) s.entries
      (runEntryUpdate s userId entryId u now).2.entries := by
  show List.Forall₂ _ s.entries (s.entries.map _)
  rw [List.forall₂_map_right_iff]
  rw [List.forall₂_same]
  intro x hx
  by_cases hhit : (x.id == entryId && x.userId == userId) = true
  · rw [if_pos hhit]
    obtain ⟨h1, h2⟩ := Bool.and_eq_true_iff.mp hhit
    exact ⟨rfl, rfl, rfl, fun hne =>
      absurd ⟨beq_iff_eq.mp h1, beq_iff_eq.mp h2⟩ hne⟩
  · rw [if_neg hhit]
    exact ⟨rfl, rfl, rfl, fun _ => rfl⟩

theorem runEntryUpdate_miss (s : Store) (userId entryId : String)
    (u : UpdateData) (now : Millis)
    (h : ∀ x ∈ s.entries, ¬ (x.id = entryId ∧ x.userId = userId)) :
    runEntryUpdate s userId entryId u now = (none, s) := by
  have hpred : ∀ x ∈ s.entries,
      (x.id == entryId && x.userId == userId) = false := by
    intro x hx
    have hno := h x hx
    by_cases h1 : x.id = entryId
    · by_cases h2 : x.userId = userId
      · exact absurd ⟨h1, h2⟩ hno
      · simp [h2]
    · simp [h1]
  have hfind :
      s.entries.find? (fun e => e.id == entryId && e.userId == userId)
        = none := by
    rw [List.find?_eq_none]
    intro x hx
    simp [hpred x hx]
  have hmap : s.entries.map (fun e =>
      if e.id == entryId && e.userId == userId then applySet u now e else e)
        = s.entries := by
    have : ∀ l : List TimeEntry,
        (∀ x ∈ l, (x.id == entryId && x.userId == userId) = false) →
        l.map (fun e =>
          if e.id == entryId && e.userId == userId then applySet u now e
          else e) = l := by
      intro l
      induction l with
      | nil => intro _; rfl
      | cons a t ih =>
        intro hl
        have ha := hl a (by simp)
        simp only [List.map_cons]
        rw [if_neg (by simp [ha]), ih (fun x hx => hl x (by simp [hx]))]
    exact this s.entries hpred
  unfold runEntryUpdate
  rw [hfind, hmap]
  rfl

/-- Shared helper: updateTimeEntry either returns the store untouched with a
null row, or is one run of the update query with some payload. -/
theorem updateTimeEntry_cases (s : Store) (userId entryId : String)
    (data : UpdateData) (now : Millis) :
    updateTimeEntry s userId entryId data now = (none, s) ∨
    ∃ u, updateTimeEntry s userId entryId data now
        = runEntryUpdate s userId entryId u now := by
  unfold updateTimeEntry
  cases h : timeFieldsTouched data with
  | false =>
    rw [if_neg (by simp [h])]
    exact .inr ⟨data, rfl⟩
  | true =>
    rw [if_pos (by simp [h])]
    cases hf : s.entries.find? (fun e =>
        e.id == entryId && e.userId == userId) with
    | none => exact .inl rfl
    | some cur =>
      simp only
      cases hend : data.endTime with
      | some oe =>
        cases oe with
        | some e => exact .inr ⟨_, rfl⟩
        | none =>
          cases hce : cur.endTime with
          | some e => exact .inr ⟨_, rfl⟩
          | none => exact .inr ⟨_, rfl⟩
      | none =>
        cases hce : cur.endTime with
        | some e => exact .inr ⟨_, rfl⟩
        | none => exact .inr ⟨_, rfl⟩

/-- C9: updateTimeEntry never changes id, userId or createdAt of any stored
row, touches at most the row addressed by entryId and the calling userId, and
answers null leaving the store intact when no such row exists. -/
theorem updateTimeEntry_frame (s : Store) (userId entryId : String)
    (data : UpdateData) (now : Millis) :
    List.Forall₂ (updateFrameRel userId entryId) s.entries
      (updateTimeEntry s userId entryId data now).2.entries ∧
    ((∀ x ∈ s.entries, ¬ (x.id = entryId ∧ x.userId = userId)) →
      (updateTimeEntry s userId entryId data now).1 = none ∧
      (updateTimeEntry s userId entryId data now).2 = s) := by
  rcases updateTimeEntry_cases s userId entryId data now with h | ⟨u, h⟩
  · rw [h]
    exact ⟨List.forall₂_same.mpr
        (fun x _ => ⟨rfl, rfl, rfl, fun _ => rfl⟩),
      fun _ => ⟨rfl, rfl⟩⟩
  · rw [h]
    refine ⟨runEntryUpdate_forall₂ s userId entryId u now, fun hno => ?_⟩
    rw [runEntryUpdate_miss s userId entryId u now hno]
    exact ⟨rfl, rfl⟩

/-- Witness for C9: updating an id that no row carries answers null and
leaves the store unchanged. -/
theorem updateTimeEntry_frame_witness :
    (updateTimeEntry storeA "u" "zz" {} 5).1 = none ∧
    (updateTimeEntry storeA "u" "zz" {} 5).2 = storeA :=
  (updateTimeEntry_frame storeA "u" "zz" {} 5).2 (by decide)

/-- Invariant I1 of the spec data model: a row is active exactly when both
endTime and durationMinutes are null. -/
def invariantI1 (e : TimeEntry) : Prop :=
  e.isActive = true ↔ (e.endTime = none ∧ e.durationMinutes = none)

instance (e : TimeEntry) : Decidable (invariantI1 e) :=
  inferInstanceAs (Decidable
    (e.isActive = true ↔ (e.endTime = none ∧ e.durationMinutes = none)))

/-- Shared helper: the resulting store of the PATCH handler is either the
input store or the input store with the close update mapped over it. -/
theorem patchActiveEntry_store_shape (s : Store) (userId action : String)
    (now : Millis) :
    (patchActiveEntry s userId action now).2 = s ∨
    ∃ (a : TimeEntry) (d : Int), (patchActiveEntry s userId action now).2
        = { s with entries := s.entries.map (closeEntry a.id now d) } := by
  unfold patchActiveEntry
  by_cases hg : (action != "stop" && action != "pause") = true
  · rw [if_pos hg]
    exact .inl rfl
  · rw [if_neg hg]
    cases hf : s.entries.find? (isActiveFor userId) with
    | none => exact .inl rfl
    | some a =>
      by_cases hstop : (action == "stop") = true
      · refine .inr ⟨a, patchDurationMinutes a.startTime now, ?_⟩
        simp [hstop]
      · refine .inr ⟨a, patchDurationMinutes a.startTime now, ?_⟩
        simp [hstop]

/-- Counterexample to C4 as stated: on a store satisfying I1 everywhere,
updateTimeEntry supplying only a new endTime for the active entry leaves
isActive true while setting endTime, so I1 fails afterwards. -/
theorem updateEntry_breaks_I1 :
    (∀ x ∈ storeA.entries, invariantI1 x) ∧
    ¬ (∀ x ∈ (updateTimeEntry storeA "u" "e1"
        { endTime := some (some 60000) } 7).2.entries, invariantI1 x) := by
  decide

/-- Shared helper: the update both stop paths apply yields rows satisfying I1
when the input row does. -/
theorem closeEntry_preserves_I1 (entryId : String) (now : Millis) (d : Int)
    (y : TimeEntry) (hy : invariantI1 y) :
    invariantI1 (closeEntry entryId now d y) := by
  unfold closeEntry
  by_cases h : (y.id == entryId) = true
  · rw [if_pos h]
    simp [invariantI1]
  · rw [if_neg h]
    exact hy

/-- Shared helper: rows of stores reached by mapping closeEntry over a store
satisfying I1 satisfy I1. -/
theorem map_closeEntry_preserves_I1 (l : List TimeEntry) (entryId : String)
    (now : Millis) (d : Int) (hI : ∀ x ∈ l, invariantI1 x) :
    ∀ x ∈ l.map (closeEntry entryId now d), invariantI1 x := by
  intro x hx
  obtain ⟨y, hy, hxy⟩ := List.mem_map.mp hx
  rw [← hxy]
  exact closeEntry_preserves_I1 entryId now d y (hI y hy)

/-- C4 amended: start, stop, pause and addManualEntry and deleteEntry all
preserve invariant I1 on every stored row; updateEntry is the exception the
counterexample exhibits. -/
theorem lifecycle_preserves_I1 :
    (∀ (s : Store) (userId projectId description id : String) (now : Millis)
        (e : TimeEntry) (s1 : Store),
        startTimeTracking s userId projectId description id now = .ok (e, s1) →
        (∀ x ∈ s.entries, invariantI1 x) → ∀ x ∈ s1.entries, invariantI1 x) ∧
    (∀ (s : Store) (userId : String) (entryId : Option String) (now : Millis)
        (e : TimeEntry) (s1 : Store),
        stopTimeTracking s userId entryId now = .ok (e, s1) →
        (∀ x ∈ s.entries, invariantI1 x) → ∀ x ∈ s1.entries, invariantI1 x) ∧
    (∀ (s : Store) (userId action : String) (now : Millis),
        (∀ x ∈ s.entries, invariantI1 x) →
        ∀ x ∈ (patchActiveEntry s userId action now).2.entries,
          invariantI1 x) ∧
    (∀ (s : Store) (userId projectId description : String)
        (startT endT : Millis) (id : String) (now : Millis) (e : TimeEntry)
        (s1 : Store),
        addManualTimeEntry s userId projectId description startT endT id now
          = .ok (e, s1) →
        (∀ x ∈ s.entries, invariantI1 x) → ∀ x ∈ s1.entries, invariantI1 x) ∧
    (∀ (s : Store) (userId entryId : String),
        (∀ x ∈ s.entries, invariantI1 x) →
        ∀ x ∈ (deleteTimeEntry s userId entryId).2.entries, invariantI1 x) := by
  refine ⟨?_, ?_, ?_, ?_, ?_⟩
  · intro s userId projectId description id now e s1 h hI x hx
    obtain ⟨he, hs⟩ := startTimeTracking_ok_elim h
    rw [hs] at hx
    rcases List.mem_append.mp hx with hx | hx
    · exact hI x hx
    · have hxe : x = e := by simpa using hx
      rw [hxe, he]
      simp [invariantI1, newStartEntry]
  · intro s userId entryId now e s1 h hI x hx
    unfold stopTimeTracking at h
    cases hf : s.entries.find? (stopMatches userId entryId) with
    | none => rw [hf] at h; exact absurd h (by simp)
    | some a =>
      rw [hf] at h
      have h2 := congrArg Prod.snd (Except.ok.inj h)
      simp only at h2
      rw [← h2] at hx
      exact map_closeEntry_preserves_I1 s.entries a.id now
        (stopDurationMinutes a.startTime now) hI x hx
  · intro s userId action now hI x hx
    rcases patchActiveEntry_store_shape s userId action now with h | ⟨a, d, h⟩
    · rw [h] at hx
      exact hI x hx
    · rw [h] at hx
      exact map_closeEntry_preserves_I1 s.entries a.id now d hI x hx
  · intro s userId projectId description startT endT id now e s1 h hI x hx
    unfold addManualTimeEntry at h
    cases hpr : findProject s projectId userId with
    | none => rw [hpr] at h; exact absurd h (by simp)
    | some pr =>
      rw [hpr] at h
      by_cases hle : endT ≤ startT
      · rw [if_pos hle] at h; exact absurd h (by simp)
      · rw [if_neg hle] at h
        have h2 := congrArg Prod.snd (Except.ok.inj h)
        simp only at h2
        rw [← h2] at hx
        rcases List.mem_append.mp hx with hx | hx
        · exact hI x hx
        · have hxe : x = newManualEntry userId projectId description startT
              endT id now := by simpa using hx
          rw [hxe]
          simp [invariantI1, newManualEntry]
  · intro s userId entryId hI x hx
    have hx2 : x ∈ s.entries := List.mem_of_mem_filter hx
    exact hI x hx2

/-- Witness for the amended C4 at concrete inputs: deleting and stopping on a
store satisfying I1 keeps I1. -/
theorem lifecycle_preserves_I1_witness :
    (∀ x ∈ storeA.entries, invariantI1 x) ∧
    (∀ x ∈ (deleteTimeEntry storeA "u" "e1").2.entries, invariantI1 x) ∧
    (∀ x ∈ (patchActiveEntry storeA "u" "stop" 90000).2.entries,
      invariantI1 x) :=
  ⟨by decide,
   lifecycle_preserves_I1.2.2.2.2 storeA "u" "e1" (by decide),
   lifecycle_preserves_I1.2.2.1 storeA "u" "stop" 90000 (by decide)⟩

/-- Invariant I2 of the spec data model: at most one active entry per user. -/
def invariantI2 (s : Store) (userId : String) : Prop :=
  (s.entries.filter (isActiveFor userId)).length ≤ 1

instance (s : Store) (userId : String) : Decidable (invariantI2 s userId) :=
  inferInstanceAs (Decidable (_ ≤ _))

/-- A store with one project and no entries, the initial state of the race. -/
def storeIdle : Store := { projects := [{ id := "p", userId := "u" }], entries := [] }

/-- C3 failing run: `startTimeTracking` is an unguarded select-then-insert
(no unique index exists on time_entries besides the id primary key, and no
transaction wraps lines 24-48), so under the interleaving check A, check B,
insert A, insert B both concurrent calls pass the check against the initial
store, both inserts then succeed, and the resulting store carries two active
entries for the user, violating invariant I2 and the exactly-one-succeeds
requirement. -/
theorem unguarded_start_race :
    startCheck storeIdle "u" "p" = .ok () ∧
    ((startInsert (startInsert storeIdle "u" "p" "a" "id1" 0).2
        "u" "p" "b" "id2" 0).2.entries.filter (isActiveFor "u")).length = 2 ∧
    ¬ invariantI2
      (startInsert (startInsert storeIdle "u" "p" "a" "id1" 0).2
        "u" "p" "b" "id2" 0).2 "u" := by
  refine ⟨rfl, by decide, by decide⟩

/-- C1 failing run: the GET /api/time-entries handler builds its scope with no
authorization check at all.  For a principal holding only the USER role,
canViewAllTimesheets and canViewUserTimesheets both deny, yet the listing
conditions for userFilter "all" and for userFilter "u1,u2" both admit a row
of the other user u2. -/
theorem listing_skips_authorization :
    (canViewAllTimesheets
      (AuthorizationContext.mk "u1" [.user] none)).authorized = false ∧
    (canViewUserTimesheets
      (AuthorizationContext.mk "u1" [.user] none) "u2").authorized = false ∧
    listingMatches (fun _ => 0) (fun _ => 0)
      { userFilter := some "all" } "u1"
      (ListRow.mk (TimeEntry.mk "e2" "p" "u2" "" 0 none none false 0 0)
        "P" "C") = true ∧
    listingMatches (fun _ => 0) (fun _ => 0)
      { userFilter := some "u1,u2" } "u1"
      (ListRow.mk (TimeEntry.mk "e2" "p" "u2" "" 0 none none false 0 0)
        "P" "C") = true := by
  decide

end Timetracker
